import Mathlib

/-!
Shallow embedding of the spatial R-tree index core of the `duckdb-spatial`
repository: the index-build pipeline planned by
`rtree_index_create_logical.cpp` (null/empty filtering, approximate
bounding-box projection, ordering by the key produced by
`CreateOrderByMinX`), the scalar functions it relies on from
`spatial_functions_scalar.cpp` (`ST_IsEmpty`, `ST_Extent_Approx`,
`ST_Centroid` over `BOX_2DF`, `ST_XMin` over `POINT_2D`), and the plan
rewriter of `rtree_index_plan_scan.cpp`
(`RTreeIndexScanOptimizer`).  Single-precision floating point coordinates
are idealised as rationals; machine integers as `Nat`/`Int`.
-/

namespace SpatialRTree

/-- A 2D single-precision bounding box (`Box2D<float>` / the `BOX_2DF`
struct type), coordinates idealised as rationals. -/
structure Box2DF where
  min_x : ℚ
  min_y : ℚ
  max_x : ℚ
  max_y : ℚ
  deriving DecidableEq, Repr

/-- The facets of a serialised `GEOMETRY` blob (`geometry_t`) that the
embedded fragment inspects: the vertex count that `ST_IsEmpty` computes via
`sgl::ops::vertex_count`, and the optional cached bounds that
`geometry_t::TryGetCachedBounds` exposes. -/
structure Geometry where
  vertex_count : Nat
  cached_bounds : Option Box2DF
  deriving DecidableEq, Repr

/-- A SQL value as far as the embedded fragment needs it: a geometry blob
or a non-geometry (numeric) value. -/
inductive Value where
  | geom (g : Geometry)
  | intV (i : Int)
  deriving DecidableEq, Repr

/-- `ST_IsEmpty::ExecuteGeometry`: a geometry is empty iff its vertex count
is zero. -/
def st_IsEmpty (g : Geometry) : Bool :=
  g.vertex_count == 0

/-- `ST_Extent_Approx::Execute` on one row: NULL input yields NULL; an
input whose blob carries no cached bounds yields NULL; otherwise the cached
single-precision box is returned.  The function is total: it never raises. -/
def st_Extent_Approx : Option Geometry → Option Box2DF
  | none => none
  | some g => g.cached_bounds

/-- Kleene three-valued `NOT` (`ExpressionType::OPERATOR_NOT`). -/
def sqlNot : Option Bool → Option Bool
  | none => none
  | some b => some (!b)

/-- Kleene three-valued `AND` (`ExpressionType::CONJUNCTION_AND`). -/
def sqlAnd : Option Bool → Option Bool → Option Bool
  | some false, _ => some false
  | _, some false => some false
  | some true, some true => some true
  | _, _ => none

/-- `OPERATOR_IS_NOT_NULL` on the geometry column: never NULL-valued. -/
def evalIsNotNull (g : Option Geometry) : Option Bool :=
  some g.isSome

/-- `ST_IsEmpty` evaluated through the NULL-propagating unary executor. -/
def evalStIsEmpty (g : Option Geometry) : Option Bool :=
  g.map st_IsEmpty

/-- The predicate built by `CreateNullFilter`:
`geom IS NOT NULL AND NOT ST_IsEmpty(geom)`. -/
def nullFilterPredicate (g : Option Geometry) : Option Bool :=
  sqlAnd (evalIsNotNull g) (sqlNot (evalStIsEmpty g))

/-- `PhysicalFilter` retains a row iff its predicate evaluates to TRUE
(NULL and FALSE both drop the row). -/
def physicalFilterKeeps (g : Option Geometry) : Bool :=
  nullFilterPredicate g == some true

/-- A row entering the index-build pipeline: the evaluated key expression
(NULLable geometry) and the row id projected next to it. -/
structure InputRow where
  geom : Option Geometry
  row_id : Int
  deriving DecidableEq, Repr

/-- A row after the bounding-box projection: the (NULLable) approximate box
and the row id, as fed to the `PhysicalOrder` sorter. -/
structure BoxRow where
  bbox : Option Box2DF
  row_id : Int
  deriving DecidableEq, Repr

/-- The `CreateNullFilter` stage applied to the stream. -/
def nullFilterStage (rows : List InputRow) : List InputRow :=
  rows.filter (fun r => physicalFilterKeeps r.geom)

/-- The `CreateBoundingBoxProjection` stage: project
`(ST_Extent_Approx(geom), rowid)`. -/
def bboxProjectionStage (rows : List InputRow) : List BoxRow :=
  rows.map (fun r => ⟨st_Extent_Approx r.geom, r.row_id⟩)

/-- The stream handed to the `PhysicalOrder` sorter: filter then project. -/
def sorterInput (rows : List InputRow) : List BoxRow :=
  bboxProjectionStage (nullFilterStage rows)

/-- `ST_Centroid` on a (NULLable) `BOX_2DF` (`ExecuteBox<float>`): the
point `((min_x + max_x) * 0.5, (min_y + max_y) * 0.5)`; NULL in, NULL out. -/
def st_Centroid_Box (b : Option Box2DF) : Option (ℚ × ℚ) :=
  b.map (fun box => ((box.min_x + box.max_x) * 0.5, (box.min_y + box.max_y) * 0.5))

/-- `ST_XMin` on a (NULLable) `POINT_2D` (`ExecutePoint`): the x
ordinate; NULL in, NULL out. -/
def st_XMin_Point (p : Option (ℚ × ℚ)) : Option ℚ :=
  p.map Prod.fst

/-- The sort key built by `CreateOrderByMinX`:
`st_xmin(st_centroid(bbox))`. -/
def orderByMinXKey (b : Option Box2DF) : Option ℚ :=
  st_XMin_Point (st_Centroid_Box b)

/-- `ORDER BY ... ASC NULLS FIRST` comparison on the (NULLable) sort key. -/
def keyLE (a b : Option ℚ) : Bool :=
  match a, b with
  | none, _ => true
  | some _, none => false
  | some x, some y => decide (x ≤ y)

/-- The ordering relation the `PhysicalOrder` operator sorts by: ascending
`st_xmin(st_centroid(bbox))`, NULLS FIRST. -/
def orderByRel (a b : BoxRow) : Prop :=
  keyLE (orderByMinXKey a.bbox) (orderByMinXKey b.bbox) = true

instance : DecidableRel orderByRel :=
  fun a b => inferInstanceAs (Decidable (_ = true))

/-- The `PhysicalOrder` stage: a stable sort by the `CreateOrderByMinX`
key (ties broken arbitrarily but stably). -/
def orderByMinXStage (rows : List BoxRow) : List BoxRow :=
  List.insertionSort orderByRel rows

/-- The full emitted stream of the index-build input pipeline, as received
by `PhysicalCreateRTreeIndex`: filter, project, sort. -/
def indexBuildStream (rows : List InputRow) : List BoxRow :=
  orderByMinXStage (sorterInput rows)

/-- The relation stated by the spec for the sorter: ascending `bbox.min_x`
(NULLS FIRST on NULL boxes). -/
def specMinXRel (a b : BoxRow) : Prop :=
  keyLE (a.bbox.map Box2DF.min_x) (b.bbox.map Box2DF.min_x) = true

instance : DecidableRel specMinXRel :=
  fun a b => inferInstanceAs (Decidable (_ = true))

/-- The retention predicate as the spec words it: geometry non-null and
not empty (vertex count nonzero). -/
def specRetains (r : InputRow) : Bool :=
  match r.geom with
  | none => false
  | some g => g.vertex_count != 0

/-- Emission as the spec words it: the approximate bounding box paired
with the row id. -/
def specEmit (r : InputRow) : BoxRow :=
  ⟨st_Extent_Approx r.geom, r.row_id⟩

/-- Concrete wide box row: bbox (0,0,10,10), centroid x = 5, min x = 0. -/
def wideBoxRow : InputRow :=
  ⟨some ⟨4, some ⟨0, 0, 10, 10⟩⟩, 1⟩

/-- Concrete thin box row: bbox (1,1,2,2), centroid x = 3/2, min x = 1. -/
def thinBoxRow : InputRow :=
  ⟨some ⟨4, some ⟨1, 1, 2, 2⟩⟩, 2⟩

/-- Two-row input on which centroid-x order and min-x order disagree. -/
def crossingRows : List InputRow :=
  [wideBoxRow, thinBoxRow]

/-- The logical SQL types the embedded fragment distinguishes. -/
inductive LType where
  | geometry
  | boolean
  | box2df
  | point2d
  | double
  | integer
  | rowType
  deriving DecidableEq, Repr

/-- Bound expression trees as the rewriter sees them: column references
(`BoundColumnRefExpression` with its `ColumnBinding`), constants
(`BoundConstantExpression`), function calls
(`BoundFunctionExpression`, carrying whether the function is volatile),
physical references (`BoundReferenceExpression`) and comparisons
(`BoundComparisonExpression`, produced by `ConstantFilter::ToExpression`). -/
inductive Expression where
  | boundColumnRef (return_type : LType) (table_index : Nat) (column_index : Nat)
  | boundConstant (return_type : LType) (value : Value)
  | boundFunction (return_type : LType) (name : String) (volatile : Bool)
      (args : List Expression)
  | boundReference (return_type : LType) (index : Nat)
  | boundComparison (op : String) (left right : Expression)

mutual

/-- Structural expression equality (`Expression::Equals`, used by
`ExpressionEqualityMatcher`). -/
def Expression.beq : Expression → Expression → Bool
  | .boundColumnRef t ti ci, .boundColumnRef t2 ti2 ci2 =>
    t == t2 && ti == ti2 && ci == ci2
  | .boundConstant t v, .boundConstant t2 v2 => t == t2 && v == v2
  | .boundFunction t n vol args, .boundFunction t2 n2 vol2 args2 =>
    t == t2 && n == n2 && vol == vol2 && Expression.beqList args args2
  | .boundReference t i, .boundReference t2 i2 => t == t2 && i == i2
  | .boundComparison op l r, .boundComparison op2 l2 r2 =>
    op == op2 && Expression.beq l l2 && Expression.beq r r2
  | _, _ => false

/-- `Expression.beq` over argument lists. -/
def Expression.beqList : List Expression → List Expression → Bool
  | [], [] => true
  | a :: as2, b :: bs => Expression.beq a b && Expression.beqList as2 bs
  | _, _ => false

end

/-- The declared return type of an expression. -/
def Expression.returnType : Expression → LType
  | .boundColumnRef t _ _ => t
  | .boundConstant t _ => t
  | .boundFunction t _ _ _ => t
  | .boundReference t _ => t
  | .boundComparison _ _ _ => .boolean

mutual

/-- `Expression::IsConsistent`: no volatile (side-effecting) function
anywhere in the tree. -/
def Expression.isConsistent : Expression → Bool
  | .boundFunction _ _ volatile args => !volatile && Expression.allConsistent args
  | .boundComparison _ l r => l.isConsistent && r.isConsistent
  | .boundColumnRef _ _ _ => true
  | .boundConstant _ _ => true
  | .boundReference _ _ => true

/-- `Expression.isConsistent` over an argument list. -/
def Expression.allConsistent : List Expression → Bool
  | [] => true
  | e :: es => e.isConsistent && Expression.allConsistent es

end

/-- Whether an expression is a `BoundConstantExpression`
(what `ConstantExpressionMatcher` matches). -/
def Expression.isBoundConstant : Expression → Bool
  | .boundConstant _ _ => true
  | _ => false

/-- The value of a `BoundConstantExpression`. -/
def Expression.constantValue : Expression → Option Value
  | .boundConstant _ v => some v
  | _ => none

mutual

/-- `RTreeIndexScanOptimizer::RewriteIndexExpression`: remap every bound
column reference of the index key expression onto the scan's currently
projected column ids.  `indexCols` is `index.GetColumnIds()`, `tableIndex`
is `get.table_index`, `getCols` is the primary index of each entry of
`get.GetColumnIds()`.  Returns the rewritten expression and the
`rewrite_possible` flag (false when some referenced column id is not among
the scan's bound columns; the binding's table index has been overwritten by
then, exactly as in the source). -/
def rewriteIndexExpression (indexCols : List Nat) (tableIndex : Nat)
    (getCols : List Nat) : Expression → Expression × Bool
  | .boundColumnRef t _ ci =>
    let referenced := indexCols.getD ci 0
    match getCols.findIdx? (fun c => c == referenced) with
    | some i => (.boundColumnRef t tableIndex i, true)
    | none => (.boundColumnRef t tableIndex ci, false)
  | .boundFunction t n v args =>
    let r := rewriteIndexExpressionList indexCols tableIndex getCols args
    (.boundFunction t n v r.1, r.2)
  | .boundComparison op l r =>
    let rl := rewriteIndexExpression indexCols tableIndex getCols l
    let rr := rewriteIndexExpression indexCols tableIndex getCols r
    (.boundComparison op rl.1 rr.1, rl.2 && rr.2)
  | .boundConstant t v => (.boundConstant t v, true)
  | .boundReference t i => (.boundReference t i, true)

/-- `RewriteIndexExpression` over the children of a node
(`ExpressionIterator::EnumerateChildren`). -/
def rewriteIndexExpressionList (indexCols : List Nat) (tableIndex : Nat)
    (getCols : List Nat) : List Expression → List Expression × Bool
  | [] => ([], true)
  | e :: es =>
    let r := rewriteIndexExpression indexCols tableIndex getCols e
    let rs := rewriteIndexExpressionList indexCols tableIndex getCols es
    (r.1 :: rs.1, r.2 && rs.2)

end

mutual

/-- `RTreeIndexScanOptimizer::RewriteIndexExpressionForFilter`: every bound
column reference must refer to the pushed-down filter's column index
(`filter_idx`); a matching reference becomes `BoundReferenceExpression 0`,
a mismatch sets `rewrite_possible` to false and leaves the node alone. -/
def rewriteIndexExpressionForFilter (filterIdx : Nat) :
    Expression → Expression × Bool
  | .boundColumnRef t ti ci =>
    if ci ≠ filterIdx then (.boundColumnRef t ti ci, false)
    else (.boundReference t 0, true)
  | .boundFunction t n v args =>
    let r := rewriteIndexExpressionForFilterList filterIdx args
    (.boundFunction t n v r.1, r.2)
  | .boundComparison op l r =>
    let rl := rewriteIndexExpressionForFilter filterIdx l
    let rr := rewriteIndexExpressionForFilter filterIdx r
    (.boundComparison op rl.1 rr.1, rl.2 && rr.2)
  | .boundConstant t v => (.boundConstant t v, true)
  | .boundReference t i => (.boundReference t i, true)

/-- `RewriteIndexExpressionForFilter` over the children of a node. -/
def rewriteIndexExpressionForFilterList (filterIdx : Nat) :
    List Expression → List Expression × Bool
  | [] => ([], true)
  | e :: es =>
    let r := rewriteIndexExpressionForFilter filterIdx e
    let rs := rewriteIndexExpressionForFilterList filterIdx es
    (r.1 :: rs.1, r.2 && rs.2)

end

/-- The fixed allow-list of spatial predicate names used in
`TryOptimizeGet` (`spatial_predicates`). -/
def spatialPredicateNames : List String :=
  ["ST_Equals", "ST_Intersects", "ST_Touches", "ST_Crosses",
   "ST_Within", "ST_Contains", "ST_Overlaps", "ST_Covers",
   "ST_CoveredBy", "ST_ContainsProperly"]

/-- The `FunctionExpressionMatcher` assembled in `TryOptimizeGet`: the
filter expression must be a `BOUND_FUNCTION` whose name is in the
allow-list, with exactly two children matched unordered — one equal to the
rewritten index key expression, the other any bound constant.  Returns the
matched constant child (`bindings[2]`).  Note that neither the argument
types nor the function's return type are inspected. -/
def matchSpatialPredicate (indexExpr fexpr : Expression) : Option Expression :=
  match fexpr with
  | .boundFunction _ name _ [a, b] =>
    if spatialPredicateNames.contains name then
      if Expression.beq a indexExpr && b.isBoundConstant then some b
      else if Expression.beq b indexExpr && a.isBoundConstant then some a
      else none
    else none
  | _ => none

/-- `RTreeIndexScanOptimizer::TryGetBoundingBox`:
`geometry_t::TryGetCachedBounds` on the constant's blob.  The source first
reinterprets the value as a string blob via `GetValueUnsafe<string_t>`; a
non-geometry value carries no valid cached bounds. -/
def tryGetBoundingBox : Value → Option Box2DF
  | .geom g => g.cached_bounds
  | .intV _ => none

/-- One R-tree index catalog entry as the rewriter consumes it: the
indexed column ids and `unbound_expressions[0]`. -/
structure RTreeIndexEntry where
  column_ids : List Nat
  unbound_expression : Expression

/-- The table facets consulted by `TryOptimizeGet`:
`DuckTableEntry` status and the list of R-tree indexes that
`GetIndexes().BindAndScan<RTreeIndex>` visits. -/
structure TableInfo where
  is_duck_table : Bool
  indexes : List RTreeIndexEntry

/-- `RTreeIndexScanBindData`: the per-query bind data carrying the query
bounding box (the table and index references are identified by the
surrounding structures). -/
structure RTreeIndexScanBindData where
  bbox : Box2DF
  deriving DecidableEq, Repr

/-- A pushed-down table filter: an `ExpressionFilter` carrying an
expression over a `BoundReferenceExpression`, or a `ConstantFilter`
comparing the column against a constant. -/
inductive TableFilter where
  | expressionFilter (expr : Expression)
  | constantFilter (op : String) (ty : LType) (value : Value)

mutual

/-- Collaborator interface (DuckDB `ExpressionFilter::ToExpression`):
replace every `BoundReferenceExpression` in the stored expression by the
supplied column expression. -/
def substituteBoundRefs (column : Expression) : Expression → Expression
  | .boundReference _ _ => column
  | .boundFunction t n v args =>
    .boundFunction t n v (substituteBoundRefsList column args)
  | .boundComparison op l r =>
    .boundComparison op (substituteBoundRefs column l) (substituteBoundRefs column r)
  | .boundColumnRef t ti ci => .boundColumnRef t ti ci
  | .boundConstant t v => .boundConstant t v

/-- `substituteBoundRefs` over the children of a node. -/
def substituteBoundRefsList (column : Expression) :
    List Expression → List Expression
  | [] => []
  | e :: es => substituteBoundRefs column e :: substituteBoundRefsList column es

end

/-- Collaborator interface (DuckDB `TableFilter::ToExpression`): turn a
pushed-down filter back into an explicit predicate over the supplied
column expression. -/
def TableFilter.toExpression : TableFilter → Expression → Expression
  | .expressionFilter e, column => substituteBoundRefs column e
  | .constantFilter op ty v, column =>
    .boundComparison op column (.boundConstant ty v)

/-- The facets of `LogicalGet` read and written by the rewriter. -/
structure LogicalGet where
  function_name : String
  dynamic_filters_has_filters : Bool
  table : TableInfo
  table_index : Nat
  column_ids : List Nat
  returned_types : List LType
  table_filters : List (Nat × TableFilter)
  projection_ids : List Nat
  types : List LType
  bind_data : Option RTreeIndexScanBindData
  has_estimated_cardinality : Bool
  estimated_cardinality : Nat

/-- The logical plan fragment the rewriter traverses: `LogicalFilter`
(expressions, projection map, children), `LogicalGet`, and any other
operator kind with children. -/
inductive LogicalOperator where
  | filter (expressions : List Expression) (projection_map : List Nat)
      (children : List LogicalOperator)
  | get (g : LogicalGet)
  | node (kind : String) (children : List LogicalOperator)

/-- Modelled from the spec: `RTreeIndexScanFunction::GetFunction` lives in
`rtree_index_scan.cpp`, which is not among the provided source files; the
spec (§2, §4.4) describes it as the index range-scan access method that
replaces the sequential scan. -/
def rtreeIndexScanFunctionName : String := "rtree_index_scan"

/-- Modelled from the spec: the index scan's cardinality callback also
lives in `rtree_index_scan.cpp`; the spec (§6) only states that a
cardinality estimate is produced from the new access method for the
optimizer's cost model, so the estimate itself is left opaque here (the
claims depend only on the fields being recomputed from it). -/
def rtreeScanCardinality (_bd : RTreeIndexScanBindData) : Bool × Nat :=
  (true, 0)

/-- The in-place mutation of the matched `LogicalGet` performed first on
success: access function, estimated cardinality and bind data replaced. -/
def rewrittenGet (g : LogicalGet) (bd : RTreeIndexScanBindData) : LogicalGet :=
  { g with
    function_name := rtreeIndexScanFunctionName,
    has_estimated_cardinality := (rtreeScanCardinality bd).1,
    estimated_cardinality := (rtreeScanCardinality bd).2,
    bind_data := some bd }

/-- The further mutation applied when pushed-down filters must be pulled
up: `projection_ids` and `types` cleared. -/
def clearedGet (g : LogicalGet) (bd : RTreeIndexScanBindData) : LogicalGet :=
  { rewrittenGet g bd with projection_ids := [], types := [] }

/-- The remapping of the enclosing filter's `projection_map` through the
scan's `projection_ids` (performed only when a filter is present and the
scan has projection ids). -/
def remapProjectionMap (g : LogicalGet) :
    Option (List Nat) → Option (List Nat)
  | none => none
  | some pmap =>
    if g.projection_ids ≠ [] then
      some (pmap.map (fun id => g.projection_ids.getD id 0))
    else some pmap

/-- Re-materialize one pushed-down filter entry as an explicit predicate
over the scan output: look up the scan-relative position of the filter's
column id and build the predicate over a column reference to it.  `none`
models the `InternalException("Could not find column id for filter")`. -/
def materializeFilter (g : LogicalGet) (entry : Nat × TableFilter) :
    Option Expression :=
  let ty := g.returned_types.getD entry.1 .boolean
  match g.column_ids.findIdx? (fun c => c == entry.1) with
  | none => none
  | some i =>
    some (entry.2.toExpression (.boundColumnRef ty g.table_index i))

/-- Re-materialize every pushed-down filter, failing like the source's
loop if any column id cannot be found. -/
def materializeFilters (g : LogicalGet) :
    List (Nat × TableFilter) → Option (List Expression)
  | [] => some []
  | e :: rest =>
    match materializeFilter g e with
    | none => none
    | some ex => (materializeFilters g rest).map (ex :: ·)

/-- The index key expression as rewritten for the applicable trigger
pattern (`filter_column_idx.IsValid()` selects the pushed-down-filter
variant). -/
def indexRewrittenExpr (g : LogicalGet) (filterColumnIdx : Option Nat)
    (entry : RTreeIndexEntry) : Expression × Bool :=
  match filterColumnIdx with
  | some i => rewriteIndexExpressionForFilter i entry.unbound_expression
  | none =>
    rewriteIndexExpression entry.column_ids g.table_index g.column_ids
      entry.unbound_expression

/-- The `BindAndScan` callback for one index: rewrite the key expression,
run the matcher, derive the constant's bounding box, and produce the bind
data; `none` at any failed step. -/
def indexAttempt (g : LogicalGet) (filterColumnIdx : Option Nat)
    (fexpr : Expression) (entry : RTreeIndexEntry) :
    Option RTreeIndexScanBindData :=
  let rw := indexRewrittenExpr g filterColumnIdx entry
  if rw.2 then
    match matchSpatialPredicate rw.1 fexpr with
    | none => none
    | some cexpr =>
      match cexpr.constantValue with
      | none => none
      | some v =>
        match tryGetBoundingBox v with
        | none => none
        | some bbox => some ⟨bbox⟩
  else none

/-- Outcome of `TryOptimizeGet` on the scan pointed to by `get_ptr`:
no match (plan untouched), a replacement subtree for `get_ptr` together
with the updated projection map of the enclosing filter, or an
`InternalException` escaping after the scan was already mutated. -/
inductive GetRewriteResult where
  | noMatch
  | replaced (newPlan : LogicalOperator) (newProjectionMap : Option (List Nat))
  | internalError (mutatedGet : LogicalGet) (newProjectionMap : Option (List Nat))

/-- `RTreeIndexScanOptimizer::TryOptimizeGet`.  Guards: the scan must be a
`seq_scan`, with no dynamic filters, over a duck table; some index's
callback must produce bind data.  On success the scan is mutated
(`rewrittenGet`); with no pushed-down filters that is the whole rewrite,
otherwise the enclosing filter's projection map is remapped, the scan's
projection ids and types are cleared, and every pushed-down filter is
re-materialized into one new wrapping `LogicalFilter` (an unfindable
column id raising `InternalException` after the mutation). -/
def tryOptimizeGet (g : LogicalGet) (filterProjectionMap : Option (List Nat))
    (filterColumnIdx : Option Nat) (fexpr : Expression) : GetRewriteResult :=
  if g.function_name ≠ "seq_scan" then .noMatch
  else if g.dynamic_filters_has_filters then .noMatch
  else if !g.table.is_duck_table then .noMatch
  else
    match g.table.indexes.findSome? (indexAttempt g filterColumnIdx fexpr) with
    | none => .noMatch
    | some bd =>
      match g.table_filters with
      | [] => .replaced (.get (rewrittenGet g bd)) filterProjectionMap
      | _ :: _ =>
        let pm := remapProjectionMap g filterProjectionMap
        let g2 := clearedGet g bd
        match materializeFilters g2 g2.table_filters with
        | none => .internalError g2 pm
        | some exprs => .replaced (.filter exprs [] [.get g2]) pm

/-- Outcome of `TryOptimize` on a plan node: no match, a replacement for
the node, or an escaping `InternalException` with the node as left behind. -/
inductive PlanRewriteResult where
  | noMatch
  | replaced (newPlan : LogicalOperator)
  | internalError (mutatedPlan : LogicalOperator)

/-- The loop of `TryOptimize` over a `LogicalGet`'s pushed-down filters:
try each `EXPRESSION_FILTER` entry in turn until one succeeds. -/
def tryOptimizeGetFilters (g : LogicalGet) :
    List (Nat × TableFilter) → PlanRewriteResult
  | [] => .noMatch
  | (cid, TableFilter.expressionFilter e) :: rest =>
    match tryOptimizeGet g none (some cid) e with
    | .noMatch => tryOptimizeGetFilters g rest
    | .replaced p _ => .replaced p
    | .internalError pg _ => .internalError (.get pg)
  | (_, TableFilter.constantFilter _ _ _) :: rest => tryOptimizeGetFilters g rest

/-- `RTreeIndexScanOptimizer::TryOptimize`: trigger pattern (a) — a
single-expression `LogicalFilter` whose first child is a `LogicalGet` —
or trigger pattern (b) — a `LogicalGet` carrying an expression-typed
pushed-down filter.  In pattern (a) the matched filter node itself stays
in place (only its child and projection map change). -/
def tryOptimize (plan : LogicalOperator) : PlanRewriteResult :=
  match plan with
  | .filter [fexpr] pmap (.get g :: rest) =>
    (match tryOptimizeGet g (some pmap) none fexpr with
     | .noMatch => .noMatch
     | .replaced p pm => .replaced (.filter [fexpr] (pm.getD pmap) (p :: rest))
     | .internalError pg pm =>
       .internalError (.filter [fexpr] (pm.getD pmap) (.get pg :: rest)))
  | .filter _ _ _ => .noMatch
  | .get g => tryOptimizeGetFilters g g.table_filters
  | .node _ _ => .noMatch

mutual

/-- `RTreeIndexScanOptimizer::OptimizeRecursive`: single-pass top-down
traversal; the first match in a subtree replaces that subtree and ends its
traversal, otherwise recurse into the children.  `Except.error` carries
the plan as left behind by an escaping `InternalException`. -/
def optimizeRecursive (plan : LogicalOperator) :
    Except LogicalOperator LogicalOperator :=
  match tryOptimize plan with
  | .replaced p => .ok p
  | .internalError p => .error p
  | .noMatch =>
    match plan with
    | .filter e pm ch =>
      (match optimizeChildren ch with
       | .ok ch2 => .ok (.filter e pm ch2)
       | .error ch2 => .error (.filter e pm ch2))
    | .get g => .ok (.get g)
    | .node k ch =>
      (match optimizeChildren ch with
       | .ok ch2 => .ok (.node k ch2)
       | .error ch2 => .error (.node k ch2))

/-- `OptimizeRecursive` over a child list, left to right; an exception in
one child leaves the later children unvisited. -/
def optimizeChildren (l : List LogicalOperator) :
    Except (List LogicalOperator) (List LogicalOperator) :=
  match l with
  | [] => .ok []
  | c :: rest =>
    match optimizeRecursive c with
    | .error c2 => .error (c2 :: rest)
    | .ok c2 =>
      match optimizeChildren rest with
      | .ok rest2 => .ok (c2 :: rest2)
      | .error rest2 => .error (c2 :: rest2)

end

/-- Constructor test for `PlanRewriteResult.noMatch`. -/
def PlanRewriteResult.isNoMatch : PlanRewriteResult → Bool
  | .noMatch => true
  | .replaced _ => false
  | .internalError _ => false

mutual

/-- No node of the subtree matches either trigger pattern. -/
def matchFree (plan : LogicalOperator) : Bool :=
  match plan with
  | .filter e pm ch =>
    (tryOptimize (.filter e pm ch)).isNoMatch && matchFreeList ch
  | .get g => (tryOptimize (.get g)).isNoMatch
  | .node k ch =>
    (tryOptimize (.node k ch)).isNoMatch && matchFreeList ch

/-- `matchFree` over a child list. -/
def matchFreeList (l : List LogicalOperator) : Bool :=
  match l with
  | [] => true
  | c :: rest => matchFree c && matchFreeList rest

end

mutual

/-- Number of `LogicalFilter` nodes in a plan. -/
def filterCount : LogicalOperator → Nat
  | .filter _ _ ch => 1 + filterCountList ch
  | .get _ => 0
  | .node _ ch => filterCountList ch

/-- `filterCount` over a child list. -/
def filterCountList : List LogicalOperator → Nat
  | [] => 0
  | c :: rest => filterCount c + filterCountList rest

end

/-- An index attempt whose matcher reaches a matched constant operand
whose bounding box cannot be derived. -/
def matchedBoxUnderivable (g : LogicalGet) (filterColumnIdx : Option Nat)
    (fexpr : Expression) (entry : RTreeIndexEntry) : Bool :=
  match matchSpatialPredicate (indexRewrittenExpr g filterColumnIdx entry).1 fexpr with
  | none => false
  | some c =>
    match c.constantValue with
    | none => false
    | some v => (tryGetBoundingBox v).isNone

/-- The structural conditions that actually gate the matcher: the filter
predicate is a function expression with exactly two arguments whose name is
in the allow-list, one argument equal to the rewritten index key expression
and the other a bound constant, in either argument order. -/
def matcherShape (g : LogicalGet) (filterColumnIdx : Option Nat)
    (fexpr : Expression) : Prop :=
  ∃ entry ∈ g.table.indexes,
    (indexRewrittenExpr g filterColumnIdx entry).2 = true ∧
    ∃ rt name vol a b,
      fexpr = .boundFunction rt name vol [a, b] ∧
      spatialPredicateNames.contains name = true ∧
      ((a = (indexRewrittenExpr g filterColumnIdx entry).1 ∧ b.isBoundConstant = true) ∨
       (b = (indexRewrittenExpr g filterColumnIdx entry).1 ∧ a.isBoundConstant = true))

/-- The operator facet consumed by the validation in
`RTreeIndex::CreatePlan`. -/
structure CreateRTreeIndexOp where
  unbound_expressions : List Expression

/-- The physical operators of the index-build pipeline planned by
`RTreeIndex::CreatePlan`. -/
inductive PhysicalOperator where
  | tableScan
  | keyProjection (child : PhysicalOperator)
  | nullFilter (child : PhysicalOperator)
  | bboxProjection (child : PhysicalOperator)
  | orderByMinX (child : PhysicalOperator)
  | createRTreeIndex (child : PhysicalOperator)
  deriving DecidableEq, Repr

/-- The pipeline shape planned when validation passes: table scan, key
projection, null/empty filter, bounding-box projection, order, create. -/
def indexBuildPipeline : PhysicalOperator :=
  .createRTreeIndex (.orderByMinX (.bboxProjection (.nullFilter
    (.keyProjection .tableScan))))

/-- The validation prologue of `RTreeIndex::CreatePlan` followed by
pipeline construction: a `BinderException` (modelled as `Except.error` with
the source's message) when the key is not exactly one expression, its
return type is not `GEOMETRY`, or it is not consistent; otherwise the build
pipeline. -/
def rtreeCreatePlan (op : CreateRTreeIndexOp) : Except String PhysicalOperator :=
  match op.unbound_expressions with
  | [expr] =>
    if expr.returnType ≠ .geometry then
      .error "RTree indexes can only be created over GEOMETRY columns."
    else if !expr.isConsistent then
      .error "RTree index keys cannot contain expressions with side effects."
    else .ok indexBuildPipeline
  | _ => .error "RTree indexes can only be created over a single column."

/-- The error condition as the claim words it: more than one
column/expression, or a non-`GEOMETRY` key type, or a side-effecting key. -/
def createValidationFails (op : CreateRTreeIndexOp) : Bool :=
  op.unbound_expressions.length != 1 ||
    (match op.unbound_expressions with
     | [e] => !(e.returnType == LType.geometry) || !e.isConsistent
     | _ => false)

/-- Concrete index key expression: a bound reference to the indexed table
column, as stored in `unbound_expressions[0]`. -/
def exIndexKeyExpr : Expression := .boundColumnRef .geometry 0 0

/-- Concrete R-tree index entry over table column 2. -/
def exIndexEntry : RTreeIndexEntry := ⟨[2], exIndexKeyExpr⟩

/-- Concrete duck table with one R-tree index. -/
def exTableInfo : TableInfo := ⟨true, [exIndexEntry]⟩

/-- The concrete index key rewritten onto the scan's projected columns. -/
def exRewrittenKey : Expression := .boundColumnRef .geometry 7 0

/-- A concrete geometry whose blob caches the bounds (0,0,1,1). -/
def exQueryGeom : Geometry := ⟨5, some ⟨0, 0, 1, 1⟩⟩

/-- A constant expression holding `exQueryGeom`. -/
def exQueryConst : Expression := .boundConstant .geometry (.geom exQueryGeom)

/-- Concrete predicate `ST_Intersects(key, const)`. -/
def exPredicate : Expression :=
  .boundFunction .boolean "ST_Intersects" false [exRewrittenKey, exQueryConst]

/-- The same predicate with a non-boolean declared return type. -/
def exIllTypedPredicate : Expression :=
  .boundFunction .integer "ST_Intersects" false [exRewrittenKey, exQueryConst]

/-- A concrete scan over the table: geometry column (table column id 2)
projected at output position 0, the price column (id 0) at position 1. -/
def exGet : LogicalGet :=
  { function_name := "seq_scan"
    dynamic_filters_has_filters := false
    table := exTableInfo
    table_index := 7
    column_ids := [2, 0]
    returned_types := [.integer, .boolean, .geometry]
    table_filters := []
    projection_ids := []
    types := [.geometry, .integer]
    bind_data := none
    has_estimated_cardinality := false
    estimated_cardinality := 100 }

/-- The residual pushed-down filter price > 10 (on table column id 0). -/
def exResidualFilter : TableFilter := .constantFilter ">" .integer (.intV 10)

/-- The scan carrying the residual filter. -/
def exGetResidual : LogicalGet :=
  { exGet with table_filters := [(0, exResidualFilter)] }

/-- The scan carrying a residual filter whose column id (9) is not among
the scan's projected column ids. -/
def exGetBadResidual : LogicalGet :=
  { exGet with table_filters := [(9, exResidualFilter)] }

/-- A concrete geometry whose blob carries no cached bounds. -/
def exNoBoundsGeom : Geometry := ⟨5, none⟩

/-- A constant expression holding `exNoBoundsGeom`. -/
def exNoBoundsConst : Expression := .boundConstant .geometry (.geom exNoBoundsGeom)

/-- Concrete predicate whose constant operand has no derivable box. -/
def exNoBoundsPredicate : Expression :=
  .boundFunction .boolean "ST_Intersects" false [exRewrittenKey, exNoBoundsConst]

/-- The bind data expected for the query box (0,0,1,1). -/
def exBindData : RTreeIndexScanBindData := ⟨⟨0, 0, 1, 1⟩⟩

/-- The residual predicate re-materialized from `exGetResidual`'s
pushed-down filter: price (output column 1 of scan 7) > 10. -/
def exResidualExpr : Expression :=
  .boundComparison ">" (.boundColumnRef .integer 7 1) (.boundConstant .integer (.intV 10))

mutual

theorem Expression.beq_iff_eq :
    ∀ a b : Expression, (Expression.beq a b = true) ↔ a = b
  | .boundColumnRef _ _ _, .boundColumnRef _ _ _ => by
    simp [Expression.beq, and_assoc]
  | .boundColumnRef _ _ _, .boundConstant _ _ => by simp [Expression.beq]
  | .boundColumnRef _ _ _, .boundFunction _ _ _ _ => by simp [Expression.beq]
  | .boundColumnRef _ _ _, .boundReference _ _ => by simp [Expression.beq]
  | .boundColumnRef _ _ _, .boundComparison _ _ _ => by simp [Expression.beq]
  | .boundConstant _ _, .boundColumnRef _ _ _ => by simp [Expression.beq]
  | .boundConstant _ _, .boundConstant _ _ => by simp [Expression.beq]
  | .boundConstant _ _, .boundFunction _ _ _ _ => by simp [Expression.beq]
  | .boundConstant _ _, .boundReference _ _ => by simp [Expression.beq]
  | .boundConstant _ _, .boundComparison _ _ _ => by simp [Expression.beq]
  | .boundFunction _ _ _ _, .boundColumnRef _ _ _ => by simp [Expression.beq]
  | .boundFunction _ _ _ args, .boundFunction _ _ _ args2 => by
    simp [Expression.beq, Expression.beqList_iff_eq args args2, and_assoc]
  | .boundFunction _ _ _ _, .boundConstant _ _ => by simp [Expression.beq]
  | .boundFunction _ _ _ _, .boundReference _ _ => by simp [Expression.beq]
  | .boundFunction _ _ _ _, .boundComparison _ _ _ => by simp [Expression.beq]
  | .boundReference _ _, .boundColumnRef _ _ _ => by simp [Expression.beq]
  | .boundReference _ _, .boundConstant _ _ => by simp [Expression.beq]
  | .boundReference _ _, .boundFunction _ _ _ _ => by simp [Expression.beq]
  | .boundReference _ _, .boundReference _ _ => by simp [Expression.beq]
  | .boundReference _ _, .boundComparison _ _ _ => by simp [Expression.beq]
  | .boundComparison _ _ _, .boundColumnRef _ _ _ => by simp [Expression.beq]
  | .boundComparison _ _ _, .boundConstant _ _ => by simp [Expression.beq]
  | .boundComparison _ _ _, .boundFunction _ _ _ _ => by simp [Expression.beq]
  | .boundComparison _ _ _, .boundReference _ _ => by simp [Expression.beq]
  | .boundComparison _ l r, .boundComparison _ l2 r2 => by
    simp [Expression.beq, Expression.beq_iff_eq l l2, Expression.beq_iff_eq r r2,
      and_assoc]

theorem Expression.beqList_iff_eq :
    ∀ as2 bs : List Expression, (Expression.beqList as2 bs = true) ↔ as2 = bs
  | [], [] => by simp [Expression.beqList]
  | [], _ :: _ => by simp [Expression.beqList]
  | _ :: _, [] => by simp [Expression.beqList]
  | a :: as2, b :: bs => by
    simp [Expression.beqList, Expression.beq_iff_eq a b,
      Expression.beqList_iff_eq as2 bs]

end

theorem isNoMatch_iff (r : PlanRewriteResult) :
    r.isNoMatch = true ↔ r = .noMatch := by
  cases r <;> simp [PlanRewriteResult.isNoMatch]

theorem findSome?_eq_some_exists {α β : Type} (f : α → Option β) :
    ∀ (l : List α) (b : β), l.findSome? f = some b → ∃ a ∈ l, f a = some b := by
  intro l
  induction l with
  | nil => intro b h; simp [List.findSome?] at h
  | cons x xs ih =>
    intro b h
    rw [List.findSome?_cons] at h
    cases hx : f x with
    | some v =>
      rw [hx] at h
      simp only [] at h
      exact ⟨x, by simp, by rw [hx, h]⟩
    | none =>
      rw [hx] at h
      simp only [] at h
      obtain ⟨a, ha, hfa⟩ := ih b h
      exact ⟨a, by simp [ha], hfa⟩

theorem keyLE_total (a b : Option ℚ) : keyLE a b = true ∨ keyLE b a = true := by
  cases a with
  | none => left; rfl
  | some x =>
    cases b with
    | none => right; rfl
    | some y =>
      rcases le_total x y with h | h
      · left; simpa [keyLE]
      · right; simpa [keyLE]

theorem keyLE_trans (a b c : Option ℚ) (hab : keyLE a b = true)
    (hbc : keyLE b c = true) : keyLE a c = true := by
  cases a with
  | none => rfl
  | some x =>
    cases b with
    | none => simp [keyLE] at hab
    | some y =>
      cases c with
      | none => simp [keyLE] at hbc
      | some z =>
        simp only [keyLE, decide_eq_true_eq] at hab hbc ⊢
        exact le_trans hab hbc

theorem physicalFilterKeeps_eq_specRetains (r : InputRow) :
    physicalFilterKeeps r.geom = specRetains r := by
  obtain ⟨geom, rid⟩ := r
  cases geom with
  | none => rfl
  | some g =>
    cases hv : g.vertex_count == 0 <;>
      simp [physicalFilterKeeps, nullFilterPredicate, evalIsNotNull,
        evalStIsEmpty, sqlNot, sqlAnd, st_IsEmpty, specRetains, hv, bne]

theorem materializeFilters_length (g : LogicalGet) :
    ∀ (fs : List (Nat × TableFilter)) (es : List Expression),
      materializeFilters g fs = some es → es.length = fs.length := by
  intro fs
  induction fs with
  | nil => intro es h; simp [materializeFilters] at h; simp [← h]
  | cons e rest ih =>
    intro es h
    simp only [materializeFilters] at h
    cases hm : materializeFilter g e with
    | none => rw [hm] at h; exact absurd h (by simp)
    | some ex =>
      rw [hm] at h
      cases hr : materializeFilters g rest with
      | none => rw [hr] at h; simp at h
      | some tailEs =>
        rw [hr] at h
        simp only [Option.map] at h
        cases h
        simp [ih tailEs hr]

theorem materializeFilters_none_of_mem (g : LogicalGet) :
    ∀ (fs : List (Nat × TableFilter)) (e : Nat × TableFilter), e ∈ fs →
      g.column_ids.findIdx? (fun c => c == e.1) = none →
      materializeFilters g fs = none := by
  intro fs
  induction fs with
  | nil => intro e he; simp at he
  | cons hd rest ih =>
    intro e he hidx
    rcases List.mem_cons.mp he with heq | hmem
    · subst heq
      simp [materializeFilters, materializeFilter, hidx]
    · simp only [materializeFilters]
      cases hm : materializeFilter g hd with
      | none => rfl
      | some ex => rw [ih e hmem hidx]; rfl

theorem matchSpatialPredicate_some_shape (ie fexpr c : Expression)
    (h : matchSpatialPredicate ie fexpr = some c) :
    ∃ rt name vol a b,
      fexpr = .boundFunction rt name vol [a, b] ∧
      spatialPredicateNames.contains name = true ∧
      ((a = ie ∧ b.isBoundConstant = true) ∨
       (b = ie ∧ a.isBoundConstant = true)) := by
  cases fexpr with
  | boundFunction rt name vol args =>
    match args with
    | [] => simp [matchSpatialPredicate] at h
    | [_] => simp [matchSpatialPredicate] at h
    | _ :: _ :: _ :: _ => simp [matchSpatialPredicate] at h
    | [a, b] =>
      simp only [matchSpatialPredicate] at h
      by_cases hn : spatialPredicateNames.contains name = true
      · rw [if_pos hn] at h
        by_cases h1 : (Expression.beq a ie && b.isBoundConstant) = true
        · rcases (Bool.and_eq_true _ _).mp h1 with ⟨hbeq, hconst⟩
          exact ⟨rt, name, vol, a, b, rfl, hn,
            Or.inl ⟨(Expression.beq_iff_eq a ie).mp hbeq, hconst⟩⟩
        · rw [if_neg h1] at h
          by_cases h2 : (Expression.beq b ie && a.isBoundConstant) = true
          · rcases (Bool.and_eq_true _ _).mp h2 with ⟨hbeq, hconst⟩
            exact ⟨rt, name, vol, a, b, rfl, hn,
              Or.inr ⟨(Expression.beq_iff_eq b ie).mp hbeq, hconst⟩⟩
          · rw [if_neg h2] at h; exact absurd h (by simp)
      · rw [if_neg hn] at h; exact absurd h (by simp)
  | boundColumnRef t ti ci => simp [matchSpatialPredicate] at h
  | boundConstant t v => simp [matchSpatialPredicate] at h
  | boundReference t i => simp [matchSpatialPredicate] at h
  | boundComparison op l r => simp [matchSpatialPredicate] at h

theorem tryOptimizeGet_success (g : LogicalGet) (pm : Option (List Nat))
    (fidx : Option Nat) (fexpr : Expression) (bd : RTreeIndexScanBindData)
    (hname : g.function_name = "seq_scan")
    (hdyn : g.dynamic_filters_has_filters = false)
    (hduck : g.table.is_duck_table = true)
    (hfind : g.table.indexes.findSome? (indexAttempt g fidx fexpr) = some bd) :
    (g.table_filters = [] →
      tryOptimizeGet g pm fidx fexpr = .replaced (.get (rewrittenGet g bd)) pm) ∧
    (∀ es, g.table_filters ≠ [] →
      materializeFilters (clearedGet g bd) g.table_filters = some es →
      tryOptimizeGet g pm fidx fexpr =
        .replaced (.filter es [] [.get (clearedGet g bd)]) (remapProjectionMap g pm)) ∧
    (g.table_filters ≠ [] →
      materializeFilters (clearedGet g bd) g.table_filters = none →
      tryOptimizeGet g pm fidx fexpr =
        .internalError (clearedGet g bd) (remapProjectionMap g pm)) := by
  have hcl : (clearedGet g bd).table_filters = g.table_filters := rfl
  refine ⟨?_, ?_, ?_⟩
  · intro htf
    simp [tryOptimizeGet, hname, hdyn, hduck, hfind, htf]
  · intro es htf hmat
    cases htfm : g.table_filters with
    | nil => exact absurd htfm htf
    | cons hd tl =>
      rw [htfm] at hmat
      simp [tryOptimizeGet, hname, hdyn, hduck, hfind, htfm, hcl, hmat]
  · intro htf hmat
    cases htfm : g.table_filters with
    | nil => exact absurd htfm htf
    | cons hd tl =>
      rw [htfm] at hmat
      simp [tryOptimizeGet, hname, hdyn, hduck, hfind, htfm, hcl, hmat]

theorem optimizeRecursive_replaced (p r : LogicalOperator)
    (h : tryOptimize p = .replaced r) : optimizeRecursive p = .ok r := by
  cases p <;> simp [optimizeRecursive, h]

mutual

theorem matchFree_ok : ∀ p : LogicalOperator, matchFree p = true →
    optimizeRecursive p = Except.ok p
  | .filter e pm ch, h => by
    rw [matchFree] at h
    obtain ⟨h1, h2⟩ := (Bool.and_eq_true _ _).mp h
    have hno := (isNoMatch_iff _).mp h1
    have hch := matchFreeList_ok ch h2
    simp [optimizeRecursive, hno, hch]
  | .get g, h => by
    rw [matchFree] at h
    have hno := (isNoMatch_iff _).mp h
    simp [optimizeRecursive, hno]
  | .node k ch, h => by
    rw [matchFree] at h
    obtain ⟨h1, h2⟩ := (Bool.and_eq_true _ _).mp h
    have hno := (isNoMatch_iff _).mp h1
    have hch := matchFreeList_ok ch h2
    simp [optimizeRecursive, hno, hch]

theorem matchFreeList_ok : ∀ l : List LogicalOperator, matchFreeList l = true →
    optimizeChildren l = Except.ok l
  | [], _ => by simp [optimizeChildren]
  | c :: rest, h => by
    rw [matchFreeList] at h
    obtain ⟨h1, h2⟩ := (Bool.and_eq_true _ _).mp h
    have hc := matchFree_ok c h1
    have hr := matchFreeList_ok rest h2
    simp [optimizeChildren, hc, hr]

end

/-- C4: index creation raises a binder validation error before
construction starts iff the key is more than one column/expression, or the
key's return type is not GEOMETRY, or the key expression is not consistent
(has side effects); otherwise validation passes and the build pipeline is
planned. -/
theorem claim4_create_validation (op : CreateRTreeIndexOp) :
    ((∃ msg, rtreeCreatePlan op = .error msg) ↔ createValidationFails op = true) ∧
    (createValidationFails op = false → rtreeCreatePlan op = .ok indexBuildPipeline) := by
  obtain ⟨es⟩ := op
  match es with
  | [] => simp [rtreeCreatePlan, createValidationFails]
  | [e] =>
    by_cases ht : e.returnType = LType.geometry
    · by_cases hc : e.isConsistent = true
      · simp [rtreeCreatePlan, createValidationFails, ht, hc]
      · rw [Bool.not_eq_true] at hc
        simp [rtreeCreatePlan, createValidationFails, ht, hc]
    · simp [rtreeCreatePlan, createValidationFails, ht]
  | e1 :: e2 :: rest => simp [rtreeCreatePlan, createValidationFails]

/-- C4 witness: a consistent single GEOMETRY-typed key passes validation
and the pipeline is planned; (and the error condition is decidably false
for it). -/
theorem claim4_create_validation_witness :
    createValidationFails ⟨[Expression.boundColumnRef .geometry 0 0]⟩ = false ∧
    rtreeCreatePlan ⟨[Expression.boundColumnRef .geometry 0 0]⟩ =
      .ok indexBuildPipeline :=
  ⟨rfl, (claim4_create_validation ⟨[Expression.boundColumnRef .geometry 0 0]⟩).2 rfl⟩

/-- C7: the traversal is single-pass and top-down: a node whose
`TryOptimize` matches is replaced by the match result, ending traversal of
that subtree (its children are not optimized further), and a subtree in
which no node matches is returned completely unchanged. -/
theorem claim7_single_pass_first_match :
    (∀ p r : LogicalOperator, tryOptimize p = .replaced r →
       optimizeRecursive p = .ok r) ∧
    (∀ p : LogicalOperator, matchFree p = true → optimizeRecursive p = .ok p) :=
  ⟨optimizeRecursive_replaced, matchFree_ok⟩

/-- C7 witness: a concrete matching filter node is replaced by exactly the
match result, and a concrete match-free subtree is returned unchanged. -/
theorem claim7_single_pass_first_match_witness :
    optimizeRecursive (.filter [exPredicate] [] [.get exGet]) =
      .ok (.filter [exPredicate] [] [.get (rewrittenGet exGet exBindData)]) ∧
    optimizeRecursive (.node "projection" [.get exGet]) =
      .ok (.node "projection" [.get exGet]) :=
  ⟨claim7_single_pass_first_match.1 _ _ rfl,
   claim7_single_pass_first_match.2 _ rfl⟩

/-- C3: for `Filter(spatial predicate)` over a scan with an eligible index
and no other predicates, the scan becomes the index range scan and the
rewriter adds no extra Filter node to the resulting plan (the Filter count
is unchanged; the pre-existing Filter stays to re-check the exact
predicate). -/
theorem claim3_no_extra_filter (fexpr : Expression) (pmap : List Nat)
    (g : LogicalGet) (bd : RTreeIndexScanBindData)
    (hname : g.function_name = "seq_scan")
    (hdyn : g.dynamic_filters_has_filters = false)
    (hduck : g.table.is_duck_table = true)
    (hfind : g.table.indexes.findSome? (indexAttempt g none fexpr) = some bd)
    (hnof : g.table_filters = []) :
    optimizeRecursive (.filter [fexpr] pmap [.get g]) =
      .ok (.filter [fexpr] pmap [.get (rewrittenGet g bd)]) ∧
    (rewrittenGet g bd).function_name = rtreeIndexScanFunctionName ∧
    filterCount (.filter [fexpr] pmap [.get (rewrittenGet g bd)]) =
      filterCount (.filter [fexpr] pmap [.get g]) := by
  have hg := (tryOptimizeGet_success g (some pmap) none fexpr bd hname hdyn hduck
    hfind).1 hnof
  have ht : tryOptimize (.filter [fexpr] pmap [.get g]) =
      .replaced (.filter [fexpr] pmap [.get (rewrittenGet g bd)]) := by
    simp [tryOptimize, hg]
  exact ⟨optimizeRecursive_replaced _ _ ht, rfl, rfl⟩

/-- C3 witness: the concrete plan `Filter(ST_Intersects(key, const))` over
the eligible scan rewrites in place with no Filter added. -/
theorem claim3_no_extra_filter_witness :
    optimizeRecursive (.filter [exPredicate] [] [.get exGet]) =
      .ok (.filter [exPredicate] [] [.get (rewrittenGet exGet exBindData)]) ∧
    (rewrittenGet exGet exBindData).function_name = rtreeIndexScanFunctionName ∧
    filterCount (.filter [exPredicate] [] [.get (rewrittenGet exGet exBindData)]) =
      filterCount (.filter [exPredicate] [] [.get exGet]) :=
  claim3_no_extra_filter exPredicate [] exGet exBindData rfl rfl rfl rfl rfl

/-- C1: when the rewrite matches a scan carrying residual pushed-down
filters (all of whose column ids can be located), the result wraps the new
index range scan in one single new Filter node whose expressions are
exactly the re-materialized residual predicates, one per pushed-down
filter, over the renumbered scan output; when the scan carries no
pushed-down filters, no wrapping Filter node is added.  -/
theorem claim1_residual_rematerialization (g : LogicalGet)
    (pm : Option (List Nat)) (fidx : Option Nat) (fexpr : Expression)
    (bd : RTreeIndexScanBindData)
    (hname : g.function_name = "seq_scan")
    (hdyn : g.dynamic_filters_has_filters = false)
    (hduck : g.table.is_duck_table = true)
    (hfind : g.table.indexes.findSome? (indexAttempt g fidx fexpr) = some bd) :
    (∀ es, g.table_filters ≠ [] →
      materializeFilters (clearedGet g bd) g.table_filters = some es →
      tryOptimizeGet g pm fidx fexpr =
        .replaced (.filter es [] [.get (clearedGet g bd)])
          (remapProjectionMap g pm) ∧
      es.length = g.table_filters.length) ∧
    (g.table_filters = [] →
      tryOptimizeGet g pm fidx fexpr = .replaced (.get (rewrittenGet g bd)) pm) := by
  have h := tryOptimizeGet_success g pm fidx fexpr bd hname hdyn hduck hfind
  exact ⟨fun es htf hmat =>
    ⟨h.2.1 es htf hmat, materializeFilters_length _ _ es hmat⟩, h.1⟩

/-- C1 witness: the concrete scan with the residual filter price > 10 is
wrapped in a Filter carrying exactly the one re-materialized predicate. -/
theorem claim1_residual_rematerialization_witness :
    tryOptimizeGet exGetResidual (some []) none exPredicate =
      .replaced
        (.filter [exResidualExpr] [] [.get (clearedGet exGetResidual exBindData)])
        (some []) ∧
    [exResidualExpr].length = exGetResidual.table_filters.length := by
  have h := (claim1_residual_rematerialization exGetResidual (some []) none
    exPredicate exBindData rfl rfl rfl rfl).1 [exResidualExpr]
    (by simp [exGetResidual, exGet]) rfl
  exact ⟨h.1, h.2⟩

/-- C9: on a matched scan whose residual filter column id is not among the
scan's projected column ids, the rewrite ends in an `InternalException`
after the scan's access function, estimated cardinality and bind data were
already replaced and its projection ids and types cleared: the plan is
left partially rewritten. -/
theorem claim9_partial_rewrite (g : LogicalGet) (pm : Option (List Nat))
    (fidx : Option Nat) (fexpr : Expression) (bd : RTreeIndexScanBindData)
    (hname : g.function_name = "seq_scan")
    (hdyn : g.dynamic_filters_has_filters = false)
    (hduck : g.table.is_duck_table = true)
    (hfind : g.table.indexes.findSome? (indexAttempt g fidx fexpr) = some bd)
    (e : Nat × TableFilter) (hmem : e ∈ g.table_filters)
    (hbad : g.column_ids.findIdx? (fun c => c == e.1) = none) :
    tryOptimizeGet g pm fidx fexpr =
      .internalError (clearedGet g bd) (remapProjectionMap g pm) ∧
    (clearedGet g bd).function_name = rtreeIndexScanFunctionName ∧
    (clearedGet g bd).bind_data = some bd ∧
    (clearedGet g bd).has_estimated_cardinality = (rtreeScanCardinality bd).1 ∧
    (clearedGet g bd).estimated_cardinality = (rtreeScanCardinality bd).2 ∧
    (clearedGet g bd).projection_ids = [] ∧
    (clearedGet g bd).types = [] := by
  have htf : g.table_filters ≠ [] := by
    intro hnil
    rw [hnil] at hmem
    exact absurd hmem (List.not_mem_nil e)
  have hmat : materializeFilters (clearedGet g bd) g.table_filters = none :=
    materializeFilters_none_of_mem (clearedGet g bd) g.table_filters e hmem hbad
  exact ⟨(tryOptimizeGet_success g pm fidx fexpr bd hname hdyn hduck hfind).2.2
    htf hmat, rfl, rfl, rfl, rfl, rfl, rfl⟩

/-- C9 witness: the concrete scan whose residual filter sits on unfindable
column id 9 ends in the internal error with the scan already mutated. -/
theorem claim9_partial_rewrite_witness :
    tryOptimizeGet exGetBadResidual (some []) none exPredicate =
      .internalError (clearedGet exGetBadResidual exBindData) (some []) ∧
    (clearedGet exGetBadResidual exBindData).function_name =
      rtreeIndexScanFunctionName ∧
    (clearedGet exGetBadResidual exBindData).bind_data = some exBindData := by
  have h := claim9_partial_rewrite exGetBadResidual (some []) none exPredicate
    exBindData rfl rfl rfl rfl (9, exResidualFilter)
    (by simp [exGetBadResidual, exGet]) rfl
  exact ⟨h.1, h.2.1, h.2.2.1⟩

/-- C6: when every index's matched constant operand has no derivable
bounding box, the rewrite is simply disabled: `TryOptimizeGet` returns
ineligibility (no error), and the surrounding plan node is left unchanged
(the full scan is kept). -/
theorem claim6_underivable_bbox (g : LogicalGet) (pmap : List Nat)
    (fexpr : Expression)
    (h : g.table.indexes.all (matchedBoxUnderivable g none fexpr) = true)
    (hb : tryOptimize (.get g) = .noMatch) :
    tryOptimizeGet g (some pmap) none fexpr = .noMatch ∧
    optimizeRecursive (.filter [fexpr] pmap [.get g]) =
      .ok (.filter [fexpr] pmap [.get g]) := by
  have hnone : g.table.indexes.findSome? (indexAttempt g none fexpr) = none := by
    rw [List.findSome?_eq_none_iff]
    intro e he
    have hu := (List.all_eq_true.mp h) e he
    unfold matchedBoxUnderivable at hu
    unfold indexAttempt
    simp only []
    cases hrw : (indexRewrittenExpr g none e).2 with
    | false => simp [hrw]
    | true =>
      cases hm : matchSpatialPredicate (indexRewrittenExpr g none e).1 fexpr with
      | none => simp [hrw, hm]
      | some c =>
        rw [hm] at hu
        simp only [] at hu
        cases hv : c.constantValue with
        | none => rw [hv] at hu; simp at hu
        | some v =>
          rw [hv] at hu
          have hbx : tryGetBoundingBox v = none :=
            Option.isNone_iff_eq_none.mp hu
          simp [hrw, hm, hv, hbx]
  have hg : tryOptimizeGet g (some pmap) none fexpr = .noMatch := by
    unfold tryOptimizeGet
    rw [hnone]
    split_ifs <;> rfl
  refine ⟨hg, ?_⟩
  have ht : tryOptimize (.filter [fexpr] pmap [.get g]) = .noMatch := by
    simp [tryOptimize, hg]
  simp [optimizeRecursive, ht, optimizeChildren, hb]

/-- C6 witness: the concrete predicate over a constant with no cached
bounds leaves both the scan and the surrounding filter node unchanged. -/
theorem claim6_underivable_bbox_witness :
    tryOptimizeGet exGet (some []) none exNoBoundsPredicate = .noMatch ∧
    optimizeRecursive (.filter [exNoBoundsPredicate] [] [.get exGet]) =
      .ok (.filter [exNoBoundsPredicate] [] [.get exGet]) :=
  claim6_underivable_bbox exGet [] exNoBoundsPredicate rfl rfl

/-- C5 counterexample: the rewrite applies to a predicate whose declared
return type is INTEGER, not BOOLEAN — the matcher checks neither the
argument types nor the return type, so the claim's typing conditions are
not required for the rewrite to apply. -/
theorem claim5_type_unchecked_counterexample :
    tryOptimizeGet exGet (some []) none exIllTypedPredicate =
      .replaced (.get (rewrittenGet exGet exBindData)) (some []) ∧
    exIllTypedPredicate.returnType ≠ .boolean :=
  ⟨rfl, by decide⟩

/-- C5 amended: the rewrite applies only when the filter predicate is a
function expression with exactly two arguments whose name is in the fixed
allow-list, one argument the rewritten index key expression and the other
a bound constant, in either argument order; the argument types and the
return type are not checked. -/
theorem claim5_matcher_shape (g : LogicalGet) (pm : Option (List Nat))
    (fidx : Option Nat) (fexpr : Expression)
    (h : tryOptimizeGet g pm fidx fexpr ≠ .noMatch) :
    matcherShape g fidx fexpr := by
  unfold tryOptimizeGet at h
  split_ifs at h
  · exact absurd rfl h
  · exact absurd rfl h
  · exact absurd rfl h
  · cases hf : g.table.indexes.findSome? (indexAttempt g fidx fexpr) with
    | none => rw [hf] at h; exact absurd rfl h
    | some bd =>
      obtain ⟨entry, hmem, hatt⟩ := findSome?_eq_some_exists _ _ _ hf
      unfold indexAttempt at hatt
      simp only [] at hatt
      cases hrw : (indexRewrittenExpr g fidx entry).2 with
      | false => rw [hrw] at hatt; simp at hatt
      | true =>
        rw [hrw] at hatt
        cases hm : matchSpatialPredicate (indexRewrittenExpr g fidx entry).1 fexpr with
        | none => rw [hm] at hatt; simp at hatt
        | some c =>
          obtain ⟨rt, name, vol, a, b, hfe, hcontains, hside⟩ :=
            matchSpatialPredicate_some_shape _ _ _ hm
          exact ⟨entry, hmem, hrw, rt, name, vol, a, b, hfe, hcontains, hside⟩

/-- C5 amended witness: the concrete eligible predicate satisfies the
matcher-shape conditions. -/
theorem claim5_matcher_shape_witness :
    tryOptimizeGet exGet (some []) none exPredicate ≠ .noMatch ∧
    matcherShape exGet none exPredicate := by
  have heq : tryOptimizeGet exGet (some []) none exPredicate =
      .replaced (.get (rewrittenGet exGet exBindData)) (some []) := rfl
  have hne : tryOptimizeGet exGet (some []) none exPredicate ≠ .noMatch := by
    rw [heq]
    intro hcontra
    exact GetRewriteResult.noConfusion hcontra
  exact ⟨hne, claim5_matcher_shape exGet (some []) none exPredicate hne⟩

theorem sorterInput_eq_filter_map (rows : List InputRow) :
    sorterInput rows = (rows.filter specRetains).map specEmit := by
  unfold sorterInput bboxProjectionStage nullFilterStage
  rw [List.filter_congr (fun r _ => physicalFilterKeeps_eq_specRetains r)]
  rfl

/-- C8: the index-build input pipeline retains exactly the rows whose
geometry is non-null and not empty (empty iff vertex count is zero), and
for each retained row emits its approximate bounding box paired with its
row id; rows with null or empty geometry never reach the sorter. -/
theorem claim8_retention (rows : List InputRow) :
    sorterInput rows = (rows.filter specRetains).map specEmit :=
  sorterInput_eq_filter_map rows

/-- C10: `ST_Extent_Approx` never raises: NULL input or a blob without
cached bounds yields NULL, otherwise exactly the cached box; consequently a
non-null, non-empty geometry without cached bounds is not filtered out but
enters the index-build sort with a NULL bounding-box key. -/
theorem claim10_extent_approx_null_flow :
    st_Extent_Approx none = none ∧
    (∀ g : Geometry, g.cached_bounds = none → st_Extent_Approx (some g) = none) ∧
    (∀ (g : Geometry) (b : Box2DF), g.cached_bounds = some b →
      st_Extent_Approx (some g) = some b) ∧
    (∀ (rows : List InputRow) (r : InputRow) (g : Geometry),
      r ∈ rows → r.geom = some g → g.vertex_count ≠ 0 → g.cached_bounds = none →
      (⟨none, r.row_id⟩ : BoxRow) ∈ sorterInput rows ∧
      (⟨none, r.row_id⟩ : BoxRow) ∈ indexBuildStream rows ∧
      orderByMinXKey (none : Option Box2DF) = none) := by
  refine ⟨rfl, fun g h => by simp [st_Extent_Approx, h],
    fun g b h => by simp [st_Extent_Approx, h], ?_⟩
  intro rows r g hmem hg hvc hcb
  have hkeep : specRetains r = true := by
    simp [specRetains, hg, hvc]
  have hmem2 : r ∈ rows.filter specRetains := List.mem_filter.mpr ⟨hmem, hkeep⟩
  have hemit : specEmit r = (⟨none, r.row_id⟩ : BoxRow) := by
    simp [specEmit, st_Extent_Approx, hg, hcb]
  have hs : (⟨none, r.row_id⟩ : BoxRow) ∈ sorterInput rows := by
    rw [sorterInput_eq_filter_map]
    exact hemit ▸ List.mem_map_of_mem specEmit hmem2
  refine ⟨hs, ?_, rfl⟩
  exact (List.perm_insertionSort orderByRel (sorterInput rows)).mem_iff.mpr hs

/-- C10 witness: a concrete non-empty geometry without cached bounds maps
to NULL and reaches the sorter with a NULL bounding-box key. -/
theorem claim10_extent_approx_null_flow_witness :
    st_Extent_Approx (some ⟨3, none⟩) = none ∧
    (⟨none, 7⟩ : BoxRow) ∈ sorterInput [⟨some ⟨3, none⟩, 7⟩] := by
  refine ⟨claim10_extent_approx_null_flow.2.1 ⟨3, none⟩ rfl, ?_⟩
  exact (claim10_extent_approx_null_flow.2.2.2 [⟨some ⟨3, none⟩, 7⟩]
    ⟨some ⟨3, none⟩, 7⟩ ⟨3, none⟩ (by simp) rfl (by decide) rfl).1

/-- C2 counterexample: on `crossingRows` (bboxes (0,0,10,10) then
(1,1,2,2)) the emitted stream comes out ordered by centroid x
(3/2 before 5), which is not ascending by `bbox.min_x` (1 before 0). -/
theorem claim2_not_sorted_by_min_x :
    ¬ (indexBuildStream crossingRows).Sorted specMinXRel := by
  have hrel : ¬ orderByRel ⟨some ⟨0, 0, 10, 10⟩, 1⟩ ⟨some ⟨1, 1, 2, 2⟩, 2⟩ := by
    simp only [orderByRel, orderByMinXKey, st_Centroid_Box, st_XMin_Point,
      keyLE, Option.map_some', decide_eq_true_eq]
    norm_num
  have hstream : indexBuildStream crossingRows =
      [⟨some ⟨1, 1, 2, 2⟩, 2⟩, ⟨some ⟨0, 0, 10, 10⟩, 1⟩] := by
    simp [indexBuildStream, sorterInput, nullFilterStage, bboxProjectionStage,
      crossingRows, wideBoxRow, thinBoxRow, physicalFilterKeeps,
      nullFilterPredicate, evalIsNotNull, evalStIsEmpty, sqlNot, sqlAnd,
      st_IsEmpty, st_Extent_Approx, orderByMinXStage, List.insertionSort,
      List.orderedInsert, hrel]
  rw [hstream]
  intro hsort
  have h12 := List.rel_of_sorted_cons hsort
    (⟨some ⟨0, 0, 10, 10⟩, 1⟩ : BoxRow) (by simp)
  simp only [specMinXRel, keyLE, Option.map_some', decide_eq_true_eq] at h12
  norm_num at h12

/-- C2 amended: the index-build pipeline sorts the emitted (bbox, row id)
stream ascending (NULLS FIRST) by the key `st_xmin(st_centroid(bbox))`,
the x coordinate of the bounding box's centroid `(min_x + max_x) * 0.5` —
not by `bbox.min_x`; ties are broken arbitrarily but stably. -/
theorem claim2_sorted_by_centroid_x (rows : List InputRow) :
    (indexBuildStream rows).Sorted orderByRel := by
  haveI : IsTotal BoxRow orderByRel := ⟨fun a b => keyLE_total _ _⟩
  haveI : IsTrans BoxRow orderByRel := ⟨fun a b c => keyLE_trans _ _ _⟩
  exact List.sorted_insertionSort orderByRel (sorterInput rows)

end SpatialRTree
